import Mathlib

/-!
Verification of the kili-python-sdk label-export pipeline against its
natural-language specification.

The SDK entrypoints (`QueriesLabel` in
`src/src/kili/entrypoints/queries/label/__init__.py`) and the CLI export
command (`src/kili/cli/project/export.py`) are embedded directly from the
source.  The export service itself (`kili/services/export/...`) is not part of
the provided sources — only its tests, its CLI caller and its SDK caller are —
so those parts are modelled from the specification, as indicated in each
doc comment.
-/

namespace Kili

/-! ## Basic enumerations of the data model -/

/-- Split layouts of the export (`SplitOption` literal type in the source). -/
inductive SplitOption
  | merged
  | split
deriving DecidableEq, Repr

/-- Label formats offered by the export service (`LabelFormat` literal type in
the source): YOLO v4/v5/v7, COCO, Pascal VOC and raw (a.k.a. Kili). -/
inductive LabelFormat
  | raw
  | yolo_v4
  | yolo_v5
  | yolo_v7
  | coco
  | pascal_voc
deriving DecidableEq, Repr

/-! ## Embedding of `QueriesLabel.labels` / `predictions` / `inferences`
(src/src/kili/entrypoints/queries/label/__init__.py). -/

/-- `QueryOptions(disable_tqdm, first, skip)` built by `QueriesLabel.labels`. -/
structure QueryOptions where
  disableTqdm : Bool
  first : Option Nat
  skip : Nat
deriving DecidableEq, Repr

/-- The `LabelWhere` filter built by `QueriesLabel.labels` (lines 200-216). -/
structure LabelWhere where
  projectId : String
  assetId : Option String
  assetStatusIn : Option (List String)
  assetExternalIdIn : Option (List String)
  authorIn : Option (List String)
  createdAt : Option String
  createdAtGte : Option String
  createdAtLte : Option String
  honeypotMarkGte : Option ℚ
  honeypotMarkLte : Option ℚ
  idContains : Option (List String)
  labelId : Option String
  typeIn : Option (List String)
  userId : Option String
  categorySearch : Option String
deriving DecidableEq, Repr

/-- Default `fields` of `QueriesLabel.labels` (lines 118-125). -/
def defaultLabelsFields : List String :=
  ["author.email", "author.id", "id", "jsonResponse", "labelType", "secondsToLabel"]

/-- Default `fields` of `QueriesLabel.predictions` and
`QueriesLabel.inferences` (lines 336-344 and 479-487). -/
def defaultModelFields : List String :=
  ["author.email", "author.id", "id", "jsonResponse", "labelType", "modelName"]

/-- Modelled from the spec: `disable_tqdm_if_as_generator` (helper source not
under src/) disables the progress bar whenever a generator is returned. -/
def disableTqdmIfAsGenerator (asGen : Bool) (disableTqdm : Bool) : Bool :=
  asGen || disableTqdm

/-- Parameters of `QueriesLabel.labels` (lines 107-138). -/
structure LabelsParams where
  projectId : String
  assetId : Option String
  assetStatusIn : Option (List String)
  assetExternalIdIn : Option (List String)
  authorIn : Option (List String)
  createdAt : Option String
  createdAtGte : Option String
  createdAtLte : Option String
  fields : List String
  first : Option Nat
  honeypotMarkGte : Option ℚ
  honeypotMarkLte : Option ℚ
  idContains : Option (List String)
  labelId : Option String
  skip : Nat
  typeIn : Option (List String)
  userId : Option String
  disableTqdm : Bool
  categorySearch : Option String
  asGenerator : Bool
deriving DecidableEq, Repr

/-- Parameters of `QueriesLabel.predictions` and `QueriesLabel.inferences`:
the same as `LabelsParams` minus `type_in`, with `fields` optional
(lines 277-300 and 420-443). -/
structure PredictionsParams where
  projectId : String
  assetId : Option String
  assetStatusIn : Option (List String)
  assetExternalIdIn : Option (List String)
  authorIn : Option (List String)
  createdAt : Option String
  createdAtGte : Option String
  createdAtLte : Option String
  fields : Option (List String)
  first : Option Nat
  honeypotMarkGte : Option ℚ
  honeypotMarkLte : Option ℚ
  idContains : Option (List String)
  labelId : Option String
  skip : Nat
  userId : Option String
  disableTqdm : Bool
  categorySearch : Option String
  asGenerator : Bool
deriving DecidableEq, Repr

/-- The query issued by `QueriesLabel.labels`: the filter, the requested
fields, the paging options and whether a generator is returned.  The actual
network result is a function of this descriptor only, so two calls issuing
equal descriptors return the same result. -/
structure IssuedLabelQuery where
  wh : LabelWhere
  fields : List String
  options : QueryOptions
  asGenerator : Bool
deriving DecidableEq, Repr

/-- Embedding of `QueriesLabel.labels` (lines 107-223): validates the category
search query (when given and non-empty, mirroring Python truthiness), builds
the `LabelWhere` and `QueryOptions`, and issues the query.  The validator
`validate_category_search_query` is not under src/, so it is abstracted as the
`validate` parameter; it raises (here: `Except.error`) on an invalid query. -/
def labels (validate : String → Bool) (p : LabelsParams) :
    Except String IssuedLabelQuery :=
  let ok := match p.categorySearch with
    | some q => q.isEmpty || validate q
    | none => true
  if ok then
    .ok
      { wh :=
          { projectId := p.projectId
            assetId := p.assetId
            assetStatusIn := p.assetStatusIn
            assetExternalIdIn := p.assetExternalIdIn
            authorIn := p.authorIn
            createdAt := p.createdAt
            createdAtGte := p.createdAtGte
            createdAtLte := p.createdAtLte
            honeypotMarkGte := p.honeypotMarkGte
            honeypotMarkLte := p.honeypotMarkLte
            idContains := p.idContains
            labelId := p.labelId
            typeIn := p.typeIn
            userId := p.userId
            categorySearch := p.categorySearch }
        fields := p.fields
        options :=
          { disableTqdm := disableTqdmIfAsGenerator p.asGenerator p.disableTqdm
            first := p.first
            skip := p.skip }
        asGenerator := p.asGenerator }
  else
    .error "invalid category search query"

/-- Embedding of `QueriesLabel.predictions` (lines 277-366): defaults the
fields to the model-name list and forwards every parameter to `labels` with
`type_in=["PREDICTION"]`. -/
def predictions (validate : String → Bool) (p : PredictionsParams) :
    Except String IssuedLabelQuery :=
  let fields := match p.fields with
    | none => defaultModelFields
    | some fs => fs
  labels validate
    { projectId := p.projectId
      assetId := p.assetId
      assetStatusIn := p.assetStatusIn
      assetExternalIdIn := p.assetExternalIdIn
      authorIn := p.authorIn
      createdAt := p.createdAt
      createdAtGte := p.createdAtGte
      createdAtLte := p.createdAtLte
      fields := fields
      first := p.first
      honeypotMarkGte := p.honeypotMarkGte
      honeypotMarkLte := p.honeypotMarkLte
      idContains := p.idContains
      labelId := p.labelId
      skip := p.skip
      typeIn := some ["PREDICTION"]
      userId := p.userId
      disableTqdm := p.disableTqdm
      categorySearch := p.categorySearch
      asGenerator := p.asGenerator }

/-- Embedding of `QueriesLabel.inferences` (lines 420-509): defaults the
fields to the model-name list and forwards every parameter to `labels` with
`type_in=["INFERENCE"]`. -/
def inferences (validate : String → Bool) (p : PredictionsParams) :
    Except String IssuedLabelQuery :=
  let fields := match p.fields with
    | none => defaultModelFields
    | some fs => fs
  labels validate
    { projectId := p.projectId
      assetId := p.assetId
      assetStatusIn := p.assetStatusIn
      assetExternalIdIn := p.assetExternalIdIn
      authorIn := p.authorIn
      createdAt := p.createdAt
      createdAtGte := p.createdAtGte
      createdAtLte := p.createdAtLte
      fields := fields
      first := p.first
      honeypotMarkGte := p.honeypotMarkGte
      honeypotMarkLte := p.honeypotMarkLte
      idContains := p.idContains
      labelId := p.labelId
      skip := p.skip
      typeIn := some ["INFERENCE"]
      userId := p.userId
      disableTqdm := p.disableTqdm
      categorySearch := p.categorySearch
      asGenerator := p.asGenerator }

/-- Spec-side view of a `predictions`/`inferences` call as a `labels` call:
the same parameters with the given `type_in` list and the fields defaulted to
the model-name list. -/
def asLabelsParams (typeIn : List String) (p : PredictionsParams) : LabelsParams :=
  { projectId := p.projectId
    assetId := p.assetId
    assetStatusIn := p.assetStatusIn
    assetExternalIdIn := p.assetExternalIdIn
    authorIn := p.authorIn
    createdAt := p.createdAt
    createdAtGte := p.createdAtGte
    createdAtLte := p.createdAtLte
    fields := (p.fields).getD defaultModelFields
    first := p.first
    honeypotMarkGte := p.honeypotMarkGte
    honeypotMarkLte := p.honeypotMarkLte
    idContains := p.idContains
    labelId := p.labelId
    skip := p.skip
    typeIn := some typeIn
    userId := p.userId
    disableTqdm := p.disableTqdm
    categorySearch := p.categorySearch
    asGenerator := p.asGenerator }

/-! ## Embedding of `QueriesLabel.export_labels` and the CLI export command -/

/-- Embedding of the asset-id resolution at the start of
`QueriesLabel.export_labels` (lines 712-716): when `external_ids` is given and
`asset_ids` is not, the asset ids become the images of the external ids under
the inferred id map, in order; otherwise `asset_ids` is left unchanged.
`infer_ids_from_external_ids` is not under src/, so the map it returns is
abstracted as the function `idMap`. -/
def resolveAssetIds (idMap : String → String) (assetIds : Option (List String))
    (externalIds : Option (List String)) : Option (List String) :=
  match externalIds, assetIds with
  | some ext, none => some (ext.map idMap)
  | _, _ => assetIds

/-- Errors raised by the export service (`kili.services.export.exceptions`). -/
inductive ExportErr
  | noCompatibleJob (msg : String)
  | notCompatibleOptions (msg : String)
deriving DecidableEq, Repr

/-- The argument record passed to `services.export_labels` by its callers. -/
structure ServiceExportCall where
  assetIds : Option (List String)
  projectId : String
  labelFormat : LabelFormat
  splitOption : SplitOption
  singleFile : Bool
  outputFile : String
  withAssets : Bool
deriving Repr

/-- What a caller of the export entrypoints observes: normal completion, a
caught-and-printed error message (the Python `except ...: print(...)` path,
normal return), or an error propagated to the caller. -/
inductive CallerOutcome
  | finished (outputFile : String)
  | printed (msg : String)
  | raisedError (e : ExportErr)
deriving DecidableEq, Repr

/-- Embedding of `QueriesLabel.export_labels`
(src/src/kili/entrypoints/queries/label/__init__.py, lines 624-735): resolves
the asset ids, calls `services.export_labels` (abstracted as `service`), and
catches `NoCompatibleJobError`, printing its message; every other error
propagates. -/
def queriesLabelExportLabels (service : ServiceExportCall → Except ExportErr Unit)
    (idMap : String → String) (projectId filename : String) (fmt : LabelFormat)
    (assetIds : Option (List String)) (layout : SplitOption) (singleFile : Bool)
    (withAssets : Bool) (externalIds : Option (List String)) : CallerOutcome :=
  let call : ServiceExportCall :=
    { assetIds := resolveAssetIds idMap assetIds externalIds
      projectId := projectId
      labelFormat := fmt
      splitOption := layout
      singleFile := singleFile
      outputFile := filename
      withAssets := withAssets }
  match service call with
  | .ok _ => .finished filename
  | .error (.noCompatibleJob m) => .printed m
  | .error e => .raisedError e

/-- Embedding of the CLI command body `kili.cli.project.export.export_labels`
(src/kili/cli/project/export.py, lines 81-96): calls `services.export_labels`
with `asset_ids=None` and catches `NoCompatibleJobError`, printing its message
and returning normally (exit 0); every other error propagates. -/
def cliExportLabels (service : ServiceExportCall → Except ExportErr Unit)
    (projectId outputFile : String) (fmt : LabelFormat) (layout : SplitOption) :
    CallerOutcome :=
  let call : ServiceExportCall :=
    { assetIds := none
      projectId := projectId
      labelFormat := fmt
      splitOption := layout
      singleFile := false
      outputFile := outputFile
      withAssets := true }
  match service call with
  | .ok _ => .finished outputFile
  | .error (.noCompatibleJob m) => .printed m
  | .error e => .raisedError e

/-! ## Spec-modelled export service
(`kili/services/export/...` is not under src/; only its tests and callers
are).  The following definitions are modelled from the specification. -/

/-- Modelled from the spec: the task types of jobs (§2 Job, glossary). -/
inductive MLTask
  | objectDetection
  | semanticSegmentation
  | classification
  | transcription
deriving DecidableEq, Repr

/-- Modelled from the spec: which task types each format converter supports
(§1, §4.2; the converter dispatch `kili/services/export/format/*` is not under
src/).  The YOLO family and Pascal VOC express object detection only; COCO
expresses object detection and semantic segmentation; raw expresses every
task. -/
def formatCompatibleWithTask : LabelFormat → MLTask → Bool
  | .raw, _ => true
  | .yolo_v4, .objectDetection => true
  | .yolo_v5, .objectDetection => true
  | .yolo_v7, .objectDetection => true
  | .coco, .objectDetection => true
  | .coco, .semanticSegmentation => true
  | .pascal_voc, .objectDetection => true
  | _, _ => false

/-- Modelled from the spec: only COCO and raw support single-file packaging
(§4.4(b), §8). -/
def formatSupportsSingleFile : LabelFormat → Bool
  | .coco => true
  | .raw => true
  | _ => false

/-- One entry of the `category_ids` mapping: a category name with its stable
numeric index (§2 Job, glossary Category). -/
structure CategoryEntry where
  categoryName : String
  catId : Nat
deriving DecidableEq, Repr

/-- A normalized vertex, coordinates relative to the asset resolution
(§3 Label: vertices in [0,1]).  Coordinates are modelled as rationals. -/
structure Vertex where
  x : ℚ
  y : ℚ
deriving DecidableEq, Repr

/-- One bounding polygon of an object: its list of normalized vertices. -/
structure BoundingPoly where
  normalizedVertices : List Vertex
deriving DecidableEq, Repr

/-- One object entry of a job response: its category names (the first one is
used) and its bounding polygons (§3 Label). -/
structure KiliAnn where
  categoryNames : List String
  boundingPoly : List BoundingPoly
deriving DecidableEq, Repr

/-- The response of one job inside the label jsonResponse, keyed by the job
name, holding one entry per detected object (§3 Label). -/
structure JobResponse where
  jobName : String
  annList : List KiliAnn
deriving DecidableEq, Repr

/-- The jsonResponse of a label, keyed by job name (§3 Label). -/
structure JsonLabel where
  jsonResponse : List JobResponse
deriving DecidableEq, Repr

/-- Minimum of a list of rationals, `none` on the empty list. -/
def qListMin : List ℚ → Option ℚ
  | [] => none
  | a :: as => some (as.foldl min a)

/-- Maximum of a list of rationals, `none` on the empty list. -/
def qListMax : List ℚ → Option ℚ
  | [] => none
  | a :: as => some (as.foldl max a)

/-- Category index lookup in the `category_ids` mapping. -/
def findCategoryId (categoryIds : List CategoryEntry) (catName : String) : Option Nat :=
  (categoryIds.find? (fun c => c.categoryName == catName)).map (fun c => c.catId)

/-- All normalized vertices of all polygons of one object. -/
def annVertices (a : KiliAnn) : List Vertex :=
  (a.boundingPoly.map (fun bp => bp.normalizedVertices)).flatten

/-- Modelled from the spec: `_convert_from_kili_to_yolo_format`
(kili/services/export/format/yolo/common.py, not under src/): for each object
of the requested job in the label, look up the category index and compute
`(index, (xmin+xmax)/2, (ymin+ymax)/2, xmax-xmin, ymax-ymin)` from the extrema
of all normalized vertices of its polygons (§4.2 YOLO family, §8).  Objects
with no category, an unknown category, or no vertex produce no line. -/
def convertFromKiliToYoloFormat (jobId : String) (label : JsonLabel)
    (categoryIds : List CategoryEntry) : List (Nat × ℚ × ℚ × ℚ × ℚ) :=
  match label.jsonResponse.find? (fun jr => jr.jobName == jobId) with
  | none => []
  | some jr =>
      jr.annList.filterMap (fun a =>
        match a.categoryNames with
        | [] => none
        | catName :: _ =>
            match findCategoryId categoryIds catName with
            | none => none
            | some idx =>
                match qListMin ((annVertices a).map (fun v => v.x)),
                      qListMax ((annVertices a).map (fun v => v.x)),
                      qListMin ((annVertices a).map (fun v => v.y)),
                      qListMax ((annVertices a).map (fun v => v.y)) with
                | some xmin, some xmax, some ymin, some ymax =>
                    some (idx, (xmin + xmax) / 2, (ymin + ymax) / 2,
                      xmax - xmin, ymax - ymin)
                | _, _, _, _ => none)

/-- Every vertex of every object of the label is normalized to the unit
square (§3 Label: "normalized polygon/bbox vertices in [0,1]"). -/
def NormalizedLabel (label : JsonLabel) : Prop :=
  ∀ jr ∈ label.jsonResponse, ∀ a ∈ jr.annList, ∀ bp ∈ a.boundingPoly,
    ∀ v ∈ bp.normalizedVertices, 0 ≤ v.x ∧ v.x ≤ 1 ∧ 0 ≤ v.y ∧ v.y ≤ 1

instance (label : JsonLabel) : Decidable (NormalizedLabel label) := by
  unfold NormalizedLabel
  infer_instance

/-- The four geometric components of a YOLO line lie in [0,1]. -/
def TupleInUnitBox (t : Nat × ℚ × ℚ × ℚ × ℚ) : Prop :=
  0 ≤ t.2.1 ∧ t.2.1 ≤ 1 ∧ 0 ≤ t.2.2.1 ∧ t.2.2.1 ≤ 1 ∧
    0 ≤ t.2.2.2.1 ∧ t.2.2.2.1 ≤ 1 ∧ 0 ≤ t.2.2.2.2 ∧ t.2.2.2.2 ≤ 1

instance (t : Nat × ℚ × ℚ × ℚ × ℚ) : Decidable (TupleInUnitBox t) := by
  unfold TupleInUnitBox
  infer_instance

/-! Fixture data.  The test fixture `fake_data.py` is not under src/, so the
fixture objects below are modelled from the expected values recorded in
`src/tests/services/export/test_yolo.py`: a single `JOB_0` object of category
index 0 whose vertex extrema realize the expected YOLO tuple
(0, 0.501415026274802, 0.5296278884310182, 0.6727472455849373,
0.5381320101586394). -/

/-- Expected center x of the fixture object (test_yolo.py line 92). -/
def fixtureCX : ℚ := 0.501415026274802

/-- Expected center y of the fixture object (test_yolo.py line 92). -/
def fixtureCY : ℚ := 0.5296278884310182

/-- Expected width of the fixture object (test_yolo.py line 92). -/
def fixtureW : ℚ := 0.6727472455849373

/-- Expected height of the fixture object (test_yolo.py line 92). -/
def fixtureH : ℚ := 0.5381320101586394

/-- The fixture `category_ids` mapping: `OBJECT_A` has index 0 and `OBJECT_B`
has index 1. -/
def fixtureCategoryIds : List CategoryEntry :=
  [{ categoryName := "OBJECT_A", catId := 0 },
   { categoryName := "OBJECT_B", catId := 1 }]

/-- The fixture object: a polygon whose vertex extrema realize the expected
center/size values. -/
def fixtureAnn : KiliAnn :=
  { categoryNames := ["OBJECT_A"]
    boundingPoly :=
      [{ normalizedVertices :=
          [{ x := fixtureCX - fixtureW / 2, y := fixtureCY - fixtureH / 2 },
           { x := fixtureCX + fixtureW / 2, y := fixtureCY - fixtureH / 2 },
           { x := fixtureCX + fixtureW / 2, y := fixtureCY + fixtureH / 2 },
           { x := fixtureCX - fixtureW / 2, y := fixtureCY + fixtureH / 2 }] }] }

/-- The fixture label: a single `JOB_0` object. -/
def fixtureLabel : JsonLabel :=
  { jsonResponse := [{ jobName := "JOB_0", annList := [fixtureAnn] }] }

/-! ## Spec-modelled YOLO asset processor (`_process_asset`) -/

/-- The content kind of an asset: a plain image with its latest label, or a
video with one label per frame (§3 Asset). -/
inductive AssetContentKind
  | image (latestLabel : JsonLabel)
  | video (frameLabels : List JsonLabel)
deriving DecidableEq, Repr

/-- An asset as consumed by the export pipeline (§3 Asset). -/
structure ExportAsset where
  externalId : String
  contentUrl : String
  kind : AssetContentKind
deriving DecidableEq, Repr

/-- One YOLO line rendered as text. -/
def yoloLine (t : Nat × ℚ × ℚ × ℚ × ℚ) : String :=
  toString t.1 ++ " " ++ toString t.2.1 ++ " " ++ toString t.2.2.1 ++ " " ++
    toString t.2.2.2.1 ++ " " ++ toString t.2.2.2.2 ++ "\n"

/-- The YOLO text content of one label file: the rendered lines of every job
response of the label (§4.2 YOLO family: one line per object). -/
def yoloContentOfLabel (label : JsonLabel) (categoryIds : List CategoryEntry) : String :=
  String.join
    ((label.jsonResponse.map (fun jr =>
      (convertFromKiliToYoloFormat jr.jobName label categoryIds).map yoloLine)).flatten)

/-- The derived filename stem of frame `i` (0-based) of a video asset:
`<externalId>_<i+1>` (§3 Asset, test_yolo.py lines 70-85). -/
def frameStem (extId : String) (i : Nat) : String :=
  extId ++ "_" ++ toString (i + 1)

/-- Modelled from the spec: `_process_asset`
(kili/services/export/format/yolo/common.py, not under src/).  For an image
asset it writes one label file `<externalId>.txt`; for a video asset it runs
once per labeled frame with frame-local filenames `<externalId>_<i>.txt`,
i from 1; each written file yields a manifest row
`[externalId, remote content URL, label filename]`, one per frame for videos,
and the ordered list of frame stems is returned (§4.3, §8).  Filesystem
writes are modelled as the returned list of (filename, content) pairs, so the
result is `(manifest rows, video frame stems, written files)`. -/
def processAsset (a : ExportAsset) (categoryIds : List CategoryEntry) :
    List (List String) × List String × List (String × String) :=
  match a.kind with
  | .image lbl =>
      ([[a.externalId, a.contentUrl, a.externalId ++ ".txt"]], [],
        [(a.externalId ++ ".txt", yoloContentOfLabel lbl categoryIds)])
  | .video frameLabels =>
      ((frameLabels.enum).map (fun p =>
          [a.externalId, a.contentUrl, frameStem a.externalId p.1 ++ ".txt"]),
       (frameLabels.enum).map (fun p => frameStem a.externalId p.1),
       (frameLabels.enum).map (fun p =>
          (frameStem a.externalId p.1 ++ ".txt", yoloContentOfLabel p.2 categoryIds)))

/-! ## Spec-modelled class/manifest auxiliary files (`_write_class_file`) -/

/-- The name of the category with the given stable index, if any. -/
def findCategoryName (categoryIds : List CategoryEntry) (k : Nat) : Option String :=
  (categoryIds.find? (fun c => c.catId == k)).map (fun c => c.categoryName)

/-- Modelled from the spec: the class list in stable category-index order
(§2 Job: "Category index assignment order ... must be deterministic and
reproducible"): line k is the name of the category with index k. -/
def classNames (categoryIds : List CategoryEntry) : List String :=
  (List.range categoryIds.length).filterMap (findCategoryName categoryIds)

/-- Modelled from the spec: the `data.yaml` manifest content for YOLO v5/v7
(§4.5, §8): the class count and the class names in index order. -/
def dataYamlContent (categoryIds : List CategoryEntry) : String :=
  "nc: " ++ toString categoryIds.length ++ "\n" ++
    "names: [" ++ String.intercalate ", " (classNames categoryIds) ++ "]\n"

/-- Modelled from the spec: `_write_class_file`
(kili/services/export/format/yolo/common.py, not under src/): writes
`classes.txt` for yolo_v4 and `data.yaml` for yolo_v5/yolo_v7, with the
categories in stable index order (§4.5, tests test_write_class_file_*).  The
written file is modelled as a (filename, byte content) pair; formats with no
class file produce `none`. -/
def writeClassFile (categoryIds : List CategoryEntry) (fmt : LabelFormat) :
    Option (String × String) :=
  match fmt with
  | .yolo_v4 =>
      some ("classes.txt", String.join ((classNames categoryIds).map (fun n => n ++ "\n")))
  | .yolo_v5 => some ("data.yaml", dataYamlContent categoryIds)
  | .yolo_v7 => some ("data.yaml", dataYamlContent categoryIds)
  | _ => none

/-! ## Spec-modelled export orchestrator (`export_labels` service) -/

/-- A labeling job of the project (§2 Job). -/
structure Job where
  name : String
  mlTask : MLTask
deriving DecidableEq, Repr

/-- A project as consumed by the export (§2 Project). -/
structure Project where
  projectId : String
  jobs : List Job
deriving DecidableEq, Repr

/-- The jobs of the project whose task type is expressible in the requested
format (§4.4(c)): incompatible jobs are silently dropped. -/
def compatibleJobs (fmt : LabelFormat) (jobs : List Job) : List Job :=
  jobs.filter (fun j => formatCompatibleWithTask fmt j.mlTask)

/-- An entry of the file tree of the produced archive: a file with its content, or
a directory entry (empty directories are legitimate entries, §4.6). -/
inductive TreeEntry
  | file (path : List String) (content : String)
  | dir (path : List String)
deriving DecidableEq, Repr

/-- An observable side effect of the export pipeline, in order: an asset
content fetch, or a file write (§5, §7). -/
inductive ExportEffect
  | fetchAsset (assetId : String)
  | writeFile (path : List String)
deriving DecidableEq, Repr

/-- The (asset-or-frame, label) units of an asset: the asset itself for an
image, one unit per frame for a video (§3: video assets always fan out
to frame-level files). -/
def assetFrameUnits (a : ExportAsset) : List (String × JsonLabel) :=
  match a.kind with
  | .image lbl => [(a.externalId, lbl)]
  | .video frameLabels =>
      (frameLabels.enum).map (fun p => (frameStem a.externalId p.1, p.2))

/-- The label files of one job directory in the split layout: one file per
asset-or-frame unit holding at least one line for that job. -/
def jobLabelFilesSplit (categoryIds : List CategoryEntry) (j : Job)
    (assets : List ExportAsset) : List TreeEntry :=
  ((assets.map assetFrameUnits).flatten).filterMap (fun u =>
    if (convertFromKiliToYoloFormat j.name u.2 categoryIds).isEmpty then none
    else some (.file [j.name, "labels", u.1 ++ ".txt"]
      (String.join ((convertFromKiliToYoloFormat j.name u.2 categoryIds).map yoloLine))))

/-- The label files of the shared labels directory in the merged layout: one
file per asset-or-frame unit with non-empty content. -/
def mergedLabelFiles (categoryIds : List CategoryEntry)
    (assets : List ExportAsset) : List TreeEntry :=
  ((assets.map assetFrameUnits).flatten).filterMap (fun u =>
    if (yoloContentOfLabel u.2 categoryIds).isEmpty then none
    else some (.file ["labels", u.1 ++ ".txt"] (yoloContentOfLabel u.2 categoryIds)))

/-- The class-file entries of the tree: one per job directory in the split
layout, a single one at the root in the merged layout (§4.5, §6). -/
def classFileEntries (fmt : LabelFormat) (layout : SplitOption)
    (cjobs : List Job) (categoryIds : List CategoryEntry) : List TreeEntry :=
  match writeClassFile categoryIds fmt with
  | none => []
  | some fc =>
      match layout with
      | .merged => [.file [fc.1] fc.2]
      | .split => cjobs.map (fun j => .file [j.name, fc.1] fc.2)

/-- The content of the fixed README file present in every archive (§6). -/
def readmeContent : String :=
  "Export of Kili labels\n"

/-- The `images/remote_assets.csv` manifest content: the manifest rows of
every asset, comma-joined (§6). -/
def remoteAssetsCsv (categoryIds : List CategoryEntry)
    (assets : List ExportAsset) : String :=
  String.join
    ((assets.map (fun a =>
      ((processAsset a categoryIds).1).map
        (fun row => String.intercalate "," row ++ "\n"))).flatten)

/-- Modelled from the spec: the archive file tree produced by a successful
YOLO-family export (§4.6, §6, test_export.py expected trees).  The split
layout holds one subdirectory per compatible job, each with a `labels/`
directory (present even with zero label files) and its class file; the merged
layout holds a single shared `labels/` directory and one root class file.
Both layouts hold `images/remote_assets.csv` and a root `README.kili.txt`. -/
def buildTree (fmt : LabelFormat) (layout : SplitOption) (cjobs : List Job)
    (assets : List ExportAsset) (categoryIds : List CategoryEntry) : List TreeEntry :=
  (match layout with
    | .merged => [TreeEntry.dir ["labels"]]
    | .split => cjobs.map (fun j => TreeEntry.dir [j.name, "labels"])) ++
  (match layout with
    | .merged => mergedLabelFiles categoryIds assets
    | .split => (cjobs.map (fun j => jobLabelFilesSplit categoryIds j assets)).flatten) ++
  classFileEntries fmt layout cjobs categoryIds ++
  [TreeEntry.dir ["images"],
   TreeEntry.file ["images", "remote_assets.csv"] (remoteAssetsCsv categoryIds assets)] ++
  [TreeEntry.file ["README.kili.txt"] readmeContent]

/-- The warning emitted when one asset fails to fetch/convert/write: it names
the skipped asset (§4.3, §7, §8). -/
def fetchFailMsg (extId : String) (e : String) : String :=
  "Could not process asset " ++ extId ++ ": " ++ e ++ "; skipping it"

/-- Accumulator of the per-asset loop: successfully processed assets,
warnings, failure count, and the effect trace so far. -/
structure FetchAcc where
  okAssets : List ExportAsset
  warnings : List String
  nbSkipped : Nat
  effects : List ExportEffect
deriving Repr

/-- One step of the per-asset loop (§4.3, §7): a failing asset is recorded
with a warning naming it and skipped; a succeeding asset is fetched and kept. -/
def fetchStep (fetch : ExportAsset → Except String Unit) (acc : FetchAcc)
    (a : ExportAsset) : FetchAcc :=
  match fetch a with
  | .ok _ =>
      { acc with
        okAssets := acc.okAssets ++ [a]
        effects := acc.effects ++ [.fetchAsset a.externalId] }
  | .error e =>
      { acc with
        warnings := acc.warnings ++ [fetchFailMsg a.externalId e]
        nbSkipped := acc.nbSkipped + 1 }

/-- The per-asset loop over all retrieved assets (§4.3). -/
def runFetchLoop (fetch : ExportAsset → Except String Unit)
    (assets : List ExportAsset) : FetchAcc :=
  assets.foldl (fetchStep fetch) { okAssets := [], warnings := [], nbSkipped := 0, effects := [] }

/-- Whether the per-asset pipeline succeeds on the asset. -/
def fetchOk (fetch : ExportAsset → Except String Unit) (a : ExportAsset) : Bool :=
  match fetch a with
  | .ok _ => true
  | .error _ => false

/-- The warning produced for the asset, if its per-asset pipeline fails. -/
def fetchWarn (fetch : ExportAsset → Except String Unit) (a : ExportAsset) :
    Option String :=
  match fetch a with
  | .ok _ => none
  | .error e => some (fetchFailMsg a.externalId e)

/-- The successful outcome of an export run: the archive file tree, the
warnings for skipped assets, the number of skipped assets, and the ordered
effect trace. -/
structure ExportOutcome where
  tree : List TreeEntry
  warnings : List String
  nbSkipped : Nat
  effects : List ExportEffect
deriving Repr

/-- The message of the `NoCompatibleJobError` (§7). -/
def noCompatibleJobMsg : String :=
  "Project needs at least one job in project that can be converted to the requested format"

/-- The message of the `NotCompatibleOptions` error for single-file mode (§7). -/
def singleFileMsg : String :=
  "The requested format does not support single file option"

/-- The write effects of a tree: one per file entry. -/
def writeEffects (tree : List TreeEntry) : List ExportEffect :=
  tree.filterMap (fun e =>
    match e with
    | .file p _ => some (.writeFile p)
    | .dir _ => none)

/-- Modelled from the spec: the `export_labels` export-service orchestrator
(kili/services/export/__init__.py and format/base.py, not under src/).
Pipeline (§4.4, §4.5, §7): validate the requested options — the single-file
check is performed before any fetch (§7: `NotCompatibleOptions` is "raised
before any fetch"), then the job-compatibility check (§4.4(a)), both before
any I/O; then run the per-asset loop, tolerating per-asset failures; then
build the staging tree and package it.  The per-asset pipeline outcome is
abstracted as `fetch`.  An error result carries the effect trace performed
before the error was raised. -/
def exportLabels (fmt : LabelFormat) (layout : SplitOption) (singleFile : Bool)
    (proj : Project) (assets : List ExportAsset) (categoryIds : List CategoryEntry)
    (fetch : ExportAsset → Except String Unit) :
    Except (ExportErr × List ExportEffect) ExportOutcome :=
  if singleFile && !(formatSupportsSingleFile fmt) then
    .error (.notCompatibleOptions singleFileMsg, [])
  else
    let cjobs := compatibleJobs fmt proj.jobs
    if cjobs.isEmpty then
      .error (.noCompatibleJob noCompatibleJobMsg, [])
    else
      let acc := runFetchLoop fetch assets
      let tree := buildTree fmt layout cjobs acc.okAssets categoryIds
      .ok
        { tree := tree
          warnings := acc.warnings
          nbSkipped := acc.nbSkipped
          effects := acc.effects ++ writeEffects tree }

/-- Whether a tree entry is a directory whose innermost component is
`labels`. -/
def isLabelsDir : TreeEntry → Bool
  | .dir p => p.getLast? == some "labels"
  | .file _ _ => false

/-! Further fixture data, modelled from the expected values of
`src/tests/services/export/test_yolo.py` and
`src/tests/services/export/test_export.py`. -/

/-- The fixture video asset: external id `video_1`, four labeled frames, one
remote parent URL (test_yolo.py lines 52-85). -/
def fixtureVideoAsset : ExportAsset :=
  { externalId := "video_1"
    contentUrl := "https://storage.googleapis.com/label-public-staging/video1/video1.mp4"
    kind := .video [fixtureLabel, fixtureLabel, fixtureLabel, fixtureLabel] }

/-- A project whose only job is a text classification job: no job is
expressible in any YOLO format (test_export.py `text_classification`). -/
def fixtureTextProject : Project :=
  { projectId := "text_classification"
    jobs := [{ name := "CLASSIFICATION_JOB", mlTask := .classification }] }

/-- An object detection project with one compatible and one incompatible job
(test_export.py `object_detection`). -/
def fixtureObjectProject : Project :=
  { projectId := "object_detection"
    jobs := [{ name := "JOB_0", mlTask := .objectDetection },
             { name := "JOB_1", mlTask := .classification }] }

/-- The fixture image asset `car_1` (test_yolo.py lines 21-50). -/
def fixtureImageAsset : ExportAsset :=
  { externalId := "car_1"
    contentUrl := "https://storage.googleapis.com/label-public-staging/car/car_1.jpg"
    kind := .image fixtureLabel }

/-- A second image asset whose download will fail in the C8 scenario. -/
def fixtureBadAsset : ExportAsset :=
  { externalId := "car_2"
    contentUrl := "https://storage.googleapis.com/label-public-staging/car/car_2.jpg"
    kind := .image fixtureLabel }

/-- A per-asset pipeline outcome where the download of `car_2` fails. -/
def fixtureFetch : ExportAsset → Except String Unit :=
  fun a => if a.externalId == "car_2" then .error "download failed" else .ok ()

/-! ## Theorems -/

/-- C9: for every validator and every parameter set, `predictions` issues
exactly the query that `labels` issues on the same parameters with
`type_in=["PREDICTION"]`, and `inferences` the one with
`type_in=["INFERENCE"]`; the only other difference is the default fields
list, which holds `modelName` in place of `secondsToLabel`. -/
theorem predictions_inferences_refine_labels :
    (∀ (validate : String → Bool) (p : PredictionsParams),
      predictions validate p = labels validate (asLabelsParams ["PREDICTION"] p)) ∧
    (∀ (validate : String → Bool) (p : PredictionsParams),
      inferences validate p = labels validate (asLabelsParams ["INFERENCE"] p)) ∧
    defaultModelFields =
      (defaultLabelsFields.filter (fun f => f != "secondsToLabel")) ++ ["modelName"] := by
  refine ⟨?_, ?_, ?_⟩
  · intro validate p
    cases hf : p.fields <;> simp [predictions, asLabelsParams, hf, Option.getD]
  · intro validate p
    cases hf : p.fields <;> simp [inferences, asLabelsParams, hf, Option.getD]
  · decide

/-- C10: in `QueriesLabel.export_labels`, when `external_ids` is given and
`asset_ids` is not, the asset ids handed to the export service are the images
of the external ids under the inferred id map, element by element in the same
order; when `asset_ids` is given, `external_ids` plays no part in the
resolution. -/
theorem export_labels_asset_id_resolution :
    (∀ (idMap : String → String) (ext : List String),
      resolveAssetIds idMap none (some ext) = some (ext.map idMap)) ∧
    (∀ (idMap : String → String) (ids : List String) (extOpt : Option (List String)),
      resolveAssetIds idMap (some ids) extOpt = some ids) ∧
    (∀ (idMap : String → String) (ext : List String) (i : Nat),
      (ext.map idMap)[i]? = ext[i]?.map idMap) := by
  refine ⟨fun _ _ => rfl, ?_, ?_⟩
  · intro idMap ids extOpt
    cases extOpt <;> rfl
  · intro idMap ext i
    simp [List.getElem?_map]

/-- C7 counterexample: with an underlying export raising
`NoCompatibleJobError`, the programmatic SDK entrypoint
`QueriesLabel.export_labels` prints the message and returns normally — the
SDK caller does not receive a raised error, contrary to the claim. -/
theorem sdk_export_swallows_no_compatible_job :
    queriesLabelExportLabels
        (fun _ => .error (.noCompatibleJob "no compatible job"))
        (fun s => s) "pid" "export.zip" .yolo_v4 none .split false true none
      = .printed "no compatible job" ∧
    CallerOutcome.printed "no compatible job"
      ≠ .raisedError (.noCompatibleJob "no compatible job") := by
  exact ⟨rfl, by decide⟩

/-- C7 amended: when the underlying export raises `NoCompatibleJobError`, the
CLI export command catches it and prints its message instead of failing, and
the SDK entrypoint `QueriesLabel.export_labels` does the same; any other
export error propagates to the caller of either entrypoint. -/
theorem cli_and_sdk_print_no_compatible_job
    (service : ServiceExportCall → Except ExportErr Unit) (m : String)
    (h : ∀ c, service c = .error (.noCompatibleJob m)) :
    (∀ pid out fmt layout, cliExportLabels service pid out fmt layout = .printed m) ∧
    (∀ idMap pid fn fmt aIds layout sf wa eIds,
      queriesLabelExportLabels service idMap pid fn fmt aIds layout sf wa eIds
        = .printed m) ∧
    (∀ (m2 : String) pid out fmt layout,
      cliExportLabels (fun _ => .error (.notCompatibleOptions m2)) pid out fmt layout
        = .raisedError (.notCompatibleOptions m2)) ∧
    (∀ (m2 : String) idMap pid fn fmt aIds layout sf wa eIds,
      queriesLabelExportLabels (fun _ => .error (.notCompatibleOptions m2))
          idMap pid fn fmt aIds layout sf wa eIds
        = .raisedError (.notCompatibleOptions m2)) := by
  refine ⟨?_, ?_, ?_, ?_⟩
  · intro pid out fmt layout
    simp [cliExportLabels, h]
  · intro idMap pid fn fmt aIds layout sf wa eIds
    simp [queriesLabelExportLabels, h]
  · intro m2 pid out fmt layout
    rfl
  · intro m2 idMap pid fn fmt aIds layout sf wa eIds
    rfl

/-- Witness for the amended C7 theorem at a concrete service and inputs. -/
theorem cli_and_sdk_print_no_compatible_job_witness :
    cliExportLabels (fun _ => .error (.noCompatibleJob "nc")) "p" "o.zip"
        .yolo_v4 .merged = .printed "nc" ∧
    queriesLabelExportLabels (fun _ => .error (.noCompatibleJob "nc"))
        (fun s => s) "p" "o.zip" .yolo_v4 none .merged false true none
      = .printed "nc" :=
  ⟨(cli_and_sdk_print_no_compatible_job
      (fun _ => .error (.noCompatibleJob "nc")) "nc" (fun _ => rfl)).1
        "p" "o.zip" .yolo_v4 .merged,
   (cli_and_sdk_print_no_compatible_job
      (fun _ => .error (.noCompatibleJob "nc")) "nc" (fun _ => rfl)).2.1
        (fun s => s) "p" "o.zip" .yolo_v4 none .merged false true none⟩

/-- The folded minimum is at most the initial value. -/
theorem foldl_min_le_init (l : List ℚ) (a : ℚ) : l.foldl min a ≤ a := by
  induction l generalizing a with
  | nil => simp
  | cons x xs ih =>
      calc (x :: xs).foldl min a = xs.foldl min (min a x) := rfl
        _ ≤ min a x := ih _
        _ ≤ a := min_le_left _ _

/-- The initial value is at most the folded maximum. -/
theorem init_le_foldl_max (l : List ℚ) (a : ℚ) : a ≤ l.foldl max a := by
  induction l generalizing a with
  | nil => simp
  | cons x xs ih =>
      calc a ≤ max a x := le_max_left _ _
        _ ≤ xs.foldl max (max a x) := ih _
        _ = (x :: xs).foldl max a := rfl

/-- A common lower bound of the initial value and the list bounds the folded
minimum. -/
theorem le_foldl_min (l : List ℚ) (a c : ℚ) (h0 : c ≤ a) (hl : ∀ x ∈ l, c ≤ x) :
    c ≤ l.foldl min a := by
  induction l generalizing a with
  | nil => simpa using h0
  | cons x xs ih =>
      have hax : c ≤ min a x := le_min h0 (hl x (List.mem_cons_self x xs))
      exact ih (min a x) hax (fun y hy => hl y (List.mem_cons_of_mem x hy))

/-- A common upper bound of the initial value and the list bounds the folded
maximum. -/
theorem foldl_max_le (l : List ℚ) (a c : ℚ) (h0 : a ≤ c) (hl : ∀ x ∈ l, x ≤ c) :
    l.foldl max a ≤ c := by
  induction l generalizing a with
  | nil => simpa using h0
  | cons x xs ih =>
      have hax : max a x ≤ c := max_le h0 (hl x (List.mem_cons_self x xs))
      exact ih (max a x) hax (fun y hy => hl y (List.mem_cons_of_mem x hy))

/-- Bounds of the list are bounds of its minimum. -/
theorem qListMin_bounds {l : List ℚ} {m lo hi : ℚ} (hm : qListMin l = some m)
    (h : ∀ x ∈ l, lo ≤ x ∧ x ≤ hi) : lo ≤ m ∧ m ≤ hi := by
  cases l with
  | nil => simp [qListMin] at hm
  | cons a as =>
      have hma : m = as.foldl min a := by
        simpa [qListMin] using hm.symm
      subst hma
      constructor
      · exact le_foldl_min as a lo (h a (List.mem_cons_self a as)).1
          (fun x hx => (h x (List.mem_cons_of_mem a hx)).1)
      · exact le_trans (foldl_min_le_init as a) (h a (List.mem_cons_self a as)).2

/-- Bounds of the list are bounds of its maximum. -/
theorem qListMax_bounds {l : List ℚ} {m lo hi : ℚ} (hm : qListMax l = some m)
    (h : ∀ x ∈ l, lo ≤ x ∧ x ≤ hi) : lo ≤ m ∧ m ≤ hi := by
  cases l with
  | nil => simp [qListMax] at hm
  | cons a as =>
      have hma : m = as.foldl max a := by
        simpa [qListMax] using hm.symm
      subst hma
      constructor
      · exact le_trans (h a (List.mem_cons_self a as)).1 (init_le_foldl_max as a)
      · exact foldl_max_le as a hi (h a (List.mem_cons_self a as)).2
          (fun x hx => (h x (List.mem_cons_of_mem a hx)).2)

/-- The minimum of a list is at most its maximum. -/
theorem qListMin_le_qListMax {l : List ℚ} {m M : ℚ} (hm : qListMin l = some m)
    (hM : qListMax l = some M) : m ≤ M := by
  cases l with
  | nil => simp [qListMin] at hm
  | cons a as =>
      have hma : m = as.foldl min a := by
        simpa [qListMin] using hm.symm
      have hMa : M = as.foldl max a := by
        simpa [qListMax] using hM.symm
      subst hma
      subst hMa
      exact le_trans (foldl_min_le_init as a) (init_le_foldl_max as a)

/-- The fixture label has all its vertices in the unit square. -/
theorem fixtureLabel_normalized : NormalizedLabel fixtureLabel := by
  unfold NormalizedLabel fixtureLabel fixtureAnn
  norm_num [fixtureCX, fixtureCY, fixtureW, fixtureH]

/-- C1: every YOLO line produced by `_convert_from_kili_to_yolo_format` from
a label with normalized vertices has its center/size components in [0,1]
(they are computed from the vertex extrema as `((xmin+xmax)/2, (ymin+ymax)/2,
xmax-xmin, ymax-ymin)` by definition of the converter); and the fixture
`JOB_0` object yields category index 0 with exactly the expected values,
which round to (0.50142, 0.52963, 0.67275, 0.53813) within 1/100000. -/
theorem convert_yolo_formula_and_fixture :
    (∀ (jobId : String) (label : JsonLabel) (categoryIds : List CategoryEntry),
      NormalizedLabel label →
      ∀ t ∈ convertFromKiliToYoloFormat jobId label categoryIds, TupleInUnitBox t) ∧
    convertFromKiliToYoloFormat "JOB_0" fixtureLabel fixtureCategoryIds
      = [(0, fixtureCX, fixtureCY, fixtureW, fixtureH)] ∧
    (|fixtureCX - 0.50142| < 1 / 100000 ∧ |fixtureCY - 0.52963| < 1 / 100000 ∧
      |fixtureW - 0.67275| < 1 / 100000 ∧ |fixtureH - 0.53813| < 1 / 100000) := by
  have hw : (0:ℚ) ≤ fixtureW := by norm_num [fixtureW]
  have hh : (0:ℚ) ≤ fixtureH := by norm_num [fixtureH]
  have hxle : fixtureCX - fixtureW / 2 ≤ fixtureCX + fixtureW / 2 := by linarith
  have hyle : fixtureCY - fixtureH / 2 ≤ fixtureCY + fixtureH / 2 := by linarith
  refine ⟨?_, ?_, ?_⟩
  · intro jobId label categoryIds hnorm t ht
    unfold convertFromKiliToYoloFormat at ht
    cases hfind : label.jsonResponse.find? (fun jr => jr.jobName == jobId) with
    | none =>
        rw [hfind] at ht
        simp at ht
    | some jr =>
        rw [hfind] at ht
        have hjr : jr ∈ label.jsonResponse := List.mem_of_find?_eq_some hfind
        rw [List.mem_filterMap] at ht
        obtain ⟨a, ha, hfa⟩ := ht
        have hvsb : ∀ v ∈ annVertices a, 0 ≤ v.x ∧ v.x ≤ 1 ∧ 0 ≤ v.y ∧ v.y ≤ 1 := by
          intro v hv
          unfold annVertices at hv
          rw [List.mem_flatten] at hv
          obtain ⟨vl, hvl, hvmem⟩ := hv
          rw [List.mem_map] at hvl
          obtain ⟨bp, hbp, hbpe⟩ := hvl
          subst hbpe
          exact hnorm jr hjr a ha bp hbp v hvmem
        have hx : ∀ x ∈ ((annVertices a).map (fun v => v.x)), 0 ≤ x ∧ x ≤ 1 := by
          intro x hxm
          rw [List.mem_map] at hxm
          obtain ⟨v, hv, hve⟩ := hxm
          subst hve
          exact ⟨(hvsb v hv).1, (hvsb v hv).2.1⟩
        have hy : ∀ y ∈ ((annVertices a).map (fun v => v.y)), 0 ≤ y ∧ y ≤ 1 := by
          intro y hym
          rw [List.mem_map] at hym
          obtain ⟨v, hv, hve⟩ := hym
          subst hve
          exact ⟨(hvsb v hv).2.2.1, (hvsb v hv).2.2.2⟩
        split at hfa
        · exact absurd hfa (by simp)
        · split at hfa
          · exact absurd hfa (by simp)
          · split at hfa
            next xmin xmax ymin ymax hxmin hxmax hymin hymax =>
              obtain ⟨hxmin0, hxmin1⟩ := qListMin_bounds hxmin hx
              obtain ⟨hxmax0, hxmax1⟩ := qListMax_bounds hxmax hx
              obtain ⟨hymin0, hymin1⟩ := qListMin_bounds hymin hy
              obtain ⟨hymax0, hymax1⟩ := qListMax_bounds hymax hy
              have hxmm : xmin ≤ xmax := qListMin_le_qListMax hxmin hxmax
              have hymm : ymin ≤ ymax := qListMin_le_qListMax hymin hymax
              cases hfa
              refine ⟨by dsimp only; linarith, by dsimp only; linarith,
                by dsimp only; linarith, by dsimp only; linarith,
                by dsimp only; linarith, by dsimp only; linarith,
                by dsimp only; linarith, by dsimp only; linarith⟩
            next => exact absurd hfa (by simp)
  · have e1 : (fixtureCX - fixtureW / 2 + (fixtureCX + fixtureW / 2)) / 2 = fixtureCX := by
      ring
    have e2 : (fixtureCY - fixtureH / 2 + (fixtureCY + fixtureH / 2)) / 2 = fixtureCY := by
      ring
    have e3 : fixtureCX + fixtureW / 2 - (fixtureCX - fixtureW / 2) = fixtureW := by
      ring
    have e4 : fixtureCY + fixtureH / 2 - (fixtureCY - fixtureH / 2) = fixtureH := by
      ring
    simp [convertFromKiliToYoloFormat, fixtureLabel, fixtureAnn, fixtureCategoryIds,
      findCategoryId, annVertices, qListMin, qListMax,
      min_eq_left hxle, max_eq_right hxle, max_eq_left hxle, min_self, max_self,
      min_eq_left hyle, max_eq_right hyle, max_eq_left hyle, e1, e2, e3, e4]
  · refine ⟨?_, ?_, ?_, ?_⟩ <;>
      (rw [abs_lt]; constructor <;> norm_num [fixtureCX, fixtureCY, fixtureW, fixtureH])

/-- Witness for C1 at the fixture inputs. -/
theorem convert_yolo_formula_and_fixture_witness :
    NormalizedLabel fixtureLabel ∧
    TupleInUnitBox (0, fixtureCX, fixtureCY, fixtureW, fixtureH) :=
  ⟨fixtureLabel_normalized,
   convert_yolo_formula_and_fixture.1 "JOB_0" fixtureLabel fixtureCategoryIds
     fixtureLabel_normalized
     (0, fixtureCX, fixtureCY, fixtureW, fixtureH)
     (by rw [convert_yolo_formula_and_fixture.2.1]; exact List.mem_singleton.mpr rfl)⟩

/-- Mapping the position of each enumerated element: `enum` then a function
of the index only is mapping that function over the range of positions. -/
theorem enum_map_fst_comp {α β : Type} (l : List α) (f : Nat → β) :
    l.enum.map (fun p => f p.1) = (List.range l.length).map f := by
  have h : l.enum.map (fun p => f p.1) = (l.enum.map Prod.fst).map f := by
    rw [List.map_map]
    rfl
  rw [h, List.enum_map_fst]

/-- C5: the YOLO asset processor fans a video asset with N labeled frames out
to exactly N label files `<externalId>_<i>.txt` (i = 1..N, never a single
file for the whole video), returns the ordered frame identifiers
`<externalId>_1 .. <externalId>_N`, and produces exactly N manifest rows, one
per frame, each referencing the remote URL of the parent video. -/
theorem process_asset_video_fanout (a : ExportAsset) (categoryIds : List CategoryEntry)
    (frameLabels : List JsonLabel) (hk : a.kind = .video frameLabels) :
    (processAsset a categoryIds).2.2.length = frameLabels.length ∧
    (processAsset a categoryIds).2.2.map Prod.fst =
      (List.range frameLabels.length).map (fun i => frameStem a.externalId i ++ ".txt") ∧
    (processAsset a categoryIds).2.1 =
      (List.range frameLabels.length).map (fun i => frameStem a.externalId i) ∧
    (processAsset a categoryIds).1 =
      (List.range frameLabels.length).map
        (fun i => [a.externalId, a.contentUrl, frameStem a.externalId i ++ ".txt"]) ∧
    ∀ row ∈ (processAsset a categoryIds).1, row[1]? = some a.contentUrl := by
  have hpa : processAsset a categoryIds =
      ((frameLabels.enum).map (fun p =>
          [a.externalId, a.contentUrl, frameStem a.externalId p.1 ++ ".txt"]),
       (frameLabels.enum).map (fun p => frameStem a.externalId p.1),
       (frameLabels.enum).map (fun p =>
          (frameStem a.externalId p.1 ++ ".txt", yoloContentOfLabel p.2 categoryIds))) := by
    unfold processAsset
    rw [hk]
  rw [hpa]
  refine ⟨?_, ?_, ?_, ?_, ?_⟩
  · simp
  · rw [List.map_map]
    exact enum_map_fst_comp frameLabels (fun i => frameStem a.externalId i ++ ".txt")
  · exact enum_map_fst_comp frameLabels (fun i => frameStem a.externalId i)
  · exact enum_map_fst_comp frameLabels
      (fun i => [a.externalId, a.contentUrl, frameStem a.externalId i ++ ".txt"])
  · intro row hrow
    rw [List.mem_map] at hrow
    obtain ⟨p, _, hpe⟩ := hrow
    subst hpe
    rfl

/-- Witness for C5 at the four-frame fixture video. -/
theorem process_asset_video_fanout_witness :
    fixtureVideoAsset.kind =
      .video [fixtureLabel, fixtureLabel, fixtureLabel, fixtureLabel] ∧
    (processAsset fixtureVideoAsset fixtureCategoryIds).2.1 =
      ["video_1_1", "video_1_2", "video_1_3", "video_1_4"] ∧
    (processAsset fixtureVideoAsset fixtureCategoryIds).2.2.length = 4 :=
  ⟨rfl,
   by
     rw [(process_asset_video_fanout fixtureVideoAsset fixtureCategoryIds
       [fixtureLabel, fixtureLabel, fixtureLabel, fixtureLabel] rfl).2.2.1]
     rfl,
   by
     rw [(process_asset_video_fanout fixtureVideoAsset fixtureCategoryIds
       [fixtureLabel, fixtureLabel, fixtureLabel, fixtureLabel] rfl).1]
     rfl⟩

/-- On category lists with pairwise-distinct indices, `find?` by index is
invariant under permutation: the element found is the unique one carrying the
index. -/
theorem find?_catId_eq_of_perm {l1 l2 : List CategoryEntry} (hp : l1.Perm l2)
    (hnd : (l1.map CategoryEntry.catId).Nodup) (k : Nat) :
    l1.find? (fun e => e.catId == k) = l2.find? (fun e => e.catId == k) := by
  cases h1 : l1.find? (fun e => e.catId == k) with
  | none =>
      cases h2 : l2.find? (fun e => e.catId == k) with
      | none => rfl
      | some c =>
          exfalso
          have hc2 : c ∈ l2 := List.mem_of_find?_eq_some h2
          have hck := List.find?_some h2
          exact absurd hck (List.find?_eq_none.mp h1 c (hp.mem_iff.mpr hc2))
  | some c =>
      have hc1 : c ∈ l1 := List.mem_of_find?_eq_some h1
      have hck := List.find?_some h1
      cases h2 : l2.find? (fun e => e.catId == k) with
      | none =>
          exfalso
          exact absurd hck (List.find?_eq_none.mp h2 c (hp.mem_iff.mp hc1))
      | some c2 =>
          have hc2 : c2 ∈ l1 := hp.mem_iff.mpr (List.mem_of_find?_eq_some h2)
          have hck2 := List.find?_some h2
          have hkk : c.catId = c2.catId := by
            have e1 : c.catId = k := by simpa using hck
            have e2 : c2.catId = k := by simpa using hck2
            rw [e1, e2]
          rw [List.inj_on_of_nodup_map hnd hc1 hc2 hkk]

/-- The index-ordered class list only depends on the category mapping, not on
the enumeration order of its entries. -/
theorem classNames_eq_of_perm {l1 l2 : List CategoryEntry} (hp : l1.Perm l2)
    (hnd : (l1.map CategoryEntry.catId).Nodup) :
    classNames l1 = classNames l2 := by
  have hfun : findCategoryName l1 = findCategoryName l2 := by
    funext k
    unfold findCategoryName
    rw [find?_catId_eq_of_perm hp hnd k]
  unfold classNames
  rw [hfun, hp.length_eq]

/-- C6: `_write_class_file` writes `classes.txt` for yolo_v4 and `data.yaml`
for yolo_v5/yolo_v7, and its byte content is a function of the category
mapping only: for injective category indices, any two enumeration orders of
the same mapping (hence any two runs on the same inputs) produce identical
bytes. -/
theorem write_class_file_deterministic :
    (∀ categoryIds, (writeClassFile categoryIds .yolo_v4).map Prod.fst
      = some "classes.txt") ∧
    (∀ categoryIds, (writeClassFile categoryIds .yolo_v5).map Prod.fst
      = some "data.yaml") ∧
    (∀ categoryIds, (writeClassFile categoryIds .yolo_v7).map Prod.fst
      = some "data.yaml") ∧
    (∀ (fmt : LabelFormat) (l1 l2 : List CategoryEntry), l1.Perm l2 →
      (l1.map CategoryEntry.catId).Nodup →
      writeClassFile l1 fmt = writeClassFile l2 fmt) := by
  refine ⟨fun _ => rfl, fun _ => rfl, fun _ => rfl, ?_⟩
  intro fmt l1 l2 hp hnd
  have hcn : classNames l1 = classNames l2 := classNames_eq_of_perm hp hnd
  have hlen : l1.length = l2.length := hp.length_eq
  cases fmt <;> simp [writeClassFile, dataYamlContent, hcn, hlen]

/-- Witness for C6: the fixture mapping enumerated in both orders yields the
same class file. -/
theorem write_class_file_deterministic_witness :
    writeClassFile fixtureCategoryIds .yolo_v4
      = writeClassFile fixtureCategoryIds.reverse .yolo_v4 ∧
    (writeClassFile fixtureCategoryIds .yolo_v4).map Prod.fst = some "classes.txt" :=
  ⟨write_class_file_deterministic.2.2.2 .yolo_v4 fixtureCategoryIds
      fixtureCategoryIds.reverse (fixtureCategoryIds.reverse_perm).symm (by decide),
   write_class_file_deterministic.1 fixtureCategoryIds⟩

/-- C2: for every label format and for a project none of whose jobs is
expressible in it, the export raises `NoCompatibleJobError` carrying an empty
effect trace: nothing was fetched and no file was written, so no output
archive exists afterwards (the call is made with the default
`single_file=False`, as in the test). -/
theorem export_no_compatible_job (fmt : LabelFormat) (layout : SplitOption)
    (proj : Project) (assets : List ExportAsset) (categoryIds : List CategoryEntry)
    (fetch : ExportAsset → Except String Unit)
    (h : ∀ j ∈ proj.jobs, formatCompatibleWithTask fmt j.mlTask = false) :
    exportLabels fmt layout false proj assets categoryIds fetch
      = .error (.noCompatibleJob noCompatibleJobMsg, []) := by
  have hc : compatibleJobs fmt proj.jobs = [] := by
    unfold compatibleJobs
    rw [List.filter_eq_nil_iff]
    intro j hj
    simp [h j hj]
  unfold exportLabels
  simp [hc]

/-- Witness for C2: exporting the text classification project to yolo_v4. -/
theorem export_no_compatible_job_witness :
    exportLabels .yolo_v4 .merged false fixtureTextProject [] fixtureCategoryIds
        (fun _ => .ok ())
      = .error (.noCompatibleJob noCompatibleJobMsg, []) :=
  export_no_compatible_job .yolo_v4 .merged fixtureTextProject [] fixtureCategoryIds
    (fun _ => .ok ()) (by decide)

/-- C3: requesting `single_file=True` with any format other than COCO and raw
raises `NotCompatibleOptions` carrying an empty effect trace: the validation
error is raised before any asset fetch or file write. -/
theorem export_single_file_not_compatible (fmt : LabelFormat) (layout : SplitOption)
    (proj : Project) (assets : List ExportAsset) (categoryIds : List CategoryEntry)
    (fetch : ExportAsset → Except String Unit)
    (h1 : fmt ≠ .coco) (h2 : fmt ≠ .raw) :
    exportLabels fmt layout true proj assets categoryIds fetch
      = .error (.notCompatibleOptions singleFileMsg, []) := by
  have h : formatSupportsSingleFile fmt = false := by
    cases fmt <;> simp_all [formatSupportsSingleFile]
  unfold exportLabels
  simp [h]

/-- Witness for C3: single-file yolo_v4 export of the object detection
project. -/
theorem export_single_file_not_compatible_witness :
    exportLabels .yolo_v4 .merged true fixtureObjectProject [] fixtureCategoryIds
        (fun _ => .ok ())
      = .error (.notCompatibleOptions singleFileMsg, []) :=
  export_single_file_not_compatible .yolo_v4 .merged fixtureObjectProject []
    fixtureCategoryIds (fun _ => .ok ()) (by decide) (by decide)

/-- Merged-layout label file entries are files, never directories. -/
theorem mem_mergedLabelFiles_not_dir {categoryIds : List CategoryEntry}
    {assets : List ExportAsset} {e : TreeEntry}
    (he : e ∈ mergedLabelFiles categoryIds assets) : isLabelsDir e = false := by
  unfold mergedLabelFiles at he
  rw [List.mem_filterMap] at he
  obtain ⟨u, hu, hue⟩ := he
  split at hue
  · exact absurd hue (by simp)
  · cases hue
    rfl

/-- Class-file entries are files, never directories. -/
theorem mem_classFileEntries_not_dir {fmt : LabelFormat} {layout : SplitOption}
    {cjobs : List Job} {categoryIds : List CategoryEntry} {e : TreeEntry}
    (he : e ∈ classFileEntries fmt layout cjobs categoryIds) :
    isLabelsDir e = false := by
  unfold classFileEntries at he
  split at he
  · simp at he
  · split at he
    · rw [List.mem_singleton] at he
      subst he
      rfl
    · rw [List.mem_map] at he
      obtain ⟨j, hj, hje⟩ := he
      subst hje
      rfl

/-- C4: with at least one compatible job, the export succeeds and its archive
tree has the layout-determined shape: the split layout holds one
`<job>/labels/` directory entry per compatible job (present even when the job
has zero label files in the exported asset set, since the entry does not
depend on the assets), the merged layout holds exactly one shared `labels/`
directory, and both layouts hold `README.kili.txt` at the root. -/
theorem export_tree_layout (fmt : LabelFormat) (layout : SplitOption)
    (proj : Project) (assets : List ExportAsset) (categoryIds : List CategoryEntry)
    (fetch : ExportAsset → Except String Unit)
    (hc : (compatibleJobs fmt proj.jobs).isEmpty = false) :
    ∃ out, exportLabels fmt layout false proj assets categoryIds fetch = .ok out ∧
      (layout = .split → ∀ j ∈ compatibleJobs fmt proj.jobs,
        TreeEntry.dir [j.name, "labels"] ∈ out.tree) ∧
      (layout = .merged →
        out.tree.filter isLabelsDir = [TreeEntry.dir ["labels"]]) ∧
      TreeEntry.file ["README.kili.txt"] readmeContent ∈ out.tree := by
  refine ⟨{ tree := buildTree fmt layout (compatibleJobs fmt proj.jobs)
              (runFetchLoop fetch assets).okAssets categoryIds
            warnings := (runFetchLoop fetch assets).warnings
            nbSkipped := (runFetchLoop fetch assets).nbSkipped
            effects := (runFetchLoop fetch assets).effects ++
              writeEffects (buildTree fmt layout (compatibleJobs fmt proj.jobs)
                (runFetchLoop fetch assets).okAssets categoryIds) }, ?_, ?_, ?_, ?_⟩
  · unfold exportLabels
    simp [hc]
  · intro hl j hj
    subst hl
    unfold buildTree
    simp only [List.mem_append]
    exact Or.inl (Or.inl (Or.inl (Or.inl (List.mem_map_of_mem _ hj))))
  · intro hl
    subst hl
    show List.filter isLabelsDir (buildTree fmt .merged _ _ _) = _
    unfold buildTree
    have hB : List.filter isLabelsDir
        (mergedLabelFiles categoryIds (runFetchLoop fetch assets).okAssets) = [] := by
      rw [List.filter_eq_nil_iff]
      intro e he
      simp [mem_mergedLabelFiles_not_dir he]
    have hC : List.filter isLabelsDir
        (classFileEntries fmt .merged (compatibleJobs fmt proj.jobs) categoryIds) = [] := by
      rw [List.filter_eq_nil_iff]
      intro e he
      simp [mem_classFileEntries_not_dir he]
    simp [List.filter_append, hB, hC, isLabelsDir]
  · unfold buildTree
    simp

/-- Witness for C4 at the object detection project with the split layout. -/
theorem export_tree_layout_witness :
    ∃ out, exportLabels .yolo_v5 .split false fixtureObjectProject [] fixtureCategoryIds
        (fun _ => .ok ()) = .ok out ∧
      (SplitOption.split = .split → ∀ j ∈ compatibleJobs .yolo_v5 fixtureObjectProject.jobs,
        TreeEntry.dir [j.name, "labels"] ∈ out.tree) ∧
      (SplitOption.split = .merged →
        out.tree.filter isLabelsDir = [TreeEntry.dir ["labels"]]) ∧
      TreeEntry.file ["README.kili.txt"] readmeContent ∈ out.tree :=
  export_tree_layout .yolo_v5 .split fixtureObjectProject [] fixtureCategoryIds
    (fun _ => .ok ()) (by decide)

/-- The per-asset loop, characterized: succeeding assets are kept in order,
each failing asset contributes one warning naming it, failures are counted,
and only succeeding assets are fetched. -/
theorem foldl_fetchStep_spec (fetch : ExportAsset → Except String Unit)
    (assets : List ExportAsset) : ∀ acc : FetchAcc,
    assets.foldl (fetchStep fetch) acc =
      { okAssets := acc.okAssets ++ assets.filter (fetchOk fetch)
        warnings := acc.warnings ++ assets.filterMap (fetchWarn fetch)
        nbSkipped := acc.nbSkipped + (assets.filterMap (fetchWarn fetch)).length
        effects := acc.effects ++ (assets.filter (fetchOk fetch)).map
          (fun a => .fetchAsset a.externalId) } := by
  induction assets with
  | nil =>
      intro acc
      simp
  | cons a as ih =>
      intro acc
      rw [List.foldl_cons, ih]
      cases hfa : fetch a with
      | ok u =>
          simp [fetchStep, fetchOk, fetchWarn, hfa, List.filter_cons, List.filterMap_cons,
            List.append_assoc]
      | error e =>
          simp [fetchStep, fetchOk, fetchWarn, hfa, List.filter_cons, List.filterMap_cons,
            List.append_assoc]
          all_goals omega

/-- C8: per-asset failures do not abort the export: with at least one
compatible job the run still succeeds, each failing asset is skipped with one
warning naming it, the failures are counted in the outcome, and the archive
tree is built from exactly the successfully processed assets. -/
theorem export_skips_failing_assets (fmt : LabelFormat) (layout : SplitOption)
    (proj : Project) (assets : List ExportAsset) (categoryIds : List CategoryEntry)
    (fetch : ExportAsset → Except String Unit)
    (hc : (compatibleJobs fmt proj.jobs).isEmpty = false) :
    ∃ out, exportLabels fmt layout false proj assets categoryIds fetch = .ok out ∧
      out.warnings = assets.filterMap (fetchWarn fetch) ∧
      out.nbSkipped = (assets.filterMap (fetchWarn fetch)).length ∧
      out.tree = buildTree fmt layout (compatibleJobs fmt proj.jobs)
        (assets.filter (fetchOk fetch)) categoryIds ∧
      (∀ a ∈ assets, ∀ e, fetch a = .error e →
        fetchFailMsg a.externalId e ∈ out.warnings) := by
  have hloop : runFetchLoop fetch assets =
      { okAssets := assets.filter (fetchOk fetch)
        warnings := assets.filterMap (fetchWarn fetch)
        nbSkipped := (assets.filterMap (fetchWarn fetch)).length
        effects := (assets.filter (fetchOk fetch)).map
          (fun a => .fetchAsset a.externalId) } := by
    unfold runFetchLoop
    rw [foldl_fetchStep_spec]
    simp
  refine ⟨{ tree := buildTree fmt layout (compatibleJobs fmt proj.jobs)
              (assets.filter (fetchOk fetch)) categoryIds
            warnings := assets.filterMap (fetchWarn fetch)
            nbSkipped := (assets.filterMap (fetchWarn fetch)).length
            effects := (assets.filter (fetchOk fetch)).map
                (fun a => .fetchAsset a.externalId) ++
              writeEffects (buildTree fmt layout (compatibleJobs fmt proj.jobs)
                (assets.filter (fetchOk fetch)) categoryIds) },
    ?_, rfl, rfl, rfl, ?_⟩
  · unfold exportLabels
    rw [hloop]
    simp [hc]
  · intro a ha e hfe
    rw [List.mem_filterMap]
    exact ⟨a, ha, by simp [fetchWarn, hfe]⟩

/-- Witness for C8: the export where `car_2` fails to download still succeeds
and warns about `car_2`. -/
theorem export_skips_failing_assets_witness :
    ∃ out, exportLabels .yolo_v5 .merged false fixtureObjectProject
        [fixtureImageAsset, fixtureBadAsset] fixtureCategoryIds fixtureFetch = .ok out ∧
      out.warnings = [fixtureImageAsset, fixtureBadAsset].filterMap (fetchWarn fixtureFetch) ∧
      out.nbSkipped = ([fixtureImageAsset, fixtureBadAsset].filterMap
        (fetchWarn fixtureFetch)).length ∧
      out.tree = buildTree .yolo_v5 .merged (compatibleJobs .yolo_v5 fixtureObjectProject.jobs)
        ([fixtureImageAsset, fixtureBadAsset].filter (fetchOk fixtureFetch))
        fixtureCategoryIds ∧
      (∀ a ∈ [fixtureImageAsset, fixtureBadAsset], ∀ e, fixtureFetch a = .error e →
        fetchFailMsg a.externalId e ∈ out.warnings) :=
  export_skips_failing_assets .yolo_v5 .merged fixtureObjectProject
    [fixtureImageAsset, fixtureBadAsset] fixtureCategoryIds fixtureFetch (by decide)

end Kili
